import Mathlib

/-!
Verification of the bulk email dispatch engine in `app.py`.

The engine (`send_bulk_emails`) iterates a window of recipient rows loaded
from a spreadsheet, renders per-recipient templates, rotates through a list
of SMTP credential configurations, and updates shared counters
(`current_index`, `total_emails`, `sent_emails`) guarded by `state_lock`.
The Flask route `send_email` (modelled here as `start_job`) resets the
shared state and spawns the engine thread unless one is already alive.

The embedding below translates the Python source line by line:
* machine integers are `Int`/`Nat` (Python ints are unbounded, so no
  wrap-around modelling is needed);
* the outcome of one SMTP delivery attempt (the whole `try:` block of
  lines 169-199) is an oracle `sendO : Int → Bool` indexed by the row index;
* the value of the shared `stop_sending` flag observed at the top of each
  iteration (it can be set concurrently by the `/stop` route) is an oracle
  `stopO : Int → Bool`;
* the `paused` busy-wait is treated separately (see `pausedCheckTrace`):
  the pure loop below models runs in which `paused` is never set, which is
  forced at job start (`resetState` sets it to `false`);
* `df.iloc[i]` including pandas negative indexing is `iloc`; an
  out-of-range access raises an uncaught exception that kills the engine
  thread, modelled by the `LoopExit.crashed` exit;
* ghost trace fields (`usedCreds`, `successIdxs`, `delays`) record which
  credential index each attempted recipient used, which row indices were
  delivered successfully, and how many pacing delays were slept; they do
  not influence control flow.
-/

namespace Sending

/-- One recipient row of the spreadsheet (one `df.iloc[i]` result).  All fields are the
string contents of the corresponding columns; a missing column is the empty
string (`row.get(col, '')`). -/
structure Row where
  email : String
  first_name : String
  last_name : String
  company_name : String
  subject : String
  body : String
deriving DecidableEq

/-- One SMTP credential record from `email_config.json`
(`load_configurations()`). -/
structure EmailConfig where
  sender_email : String
  smtp_server : String
  smtp_port : Int
  sender_name : String
  sender_password : Option String
deriving DecidableEq

/-- The shared module-level globals guarded by `state_lock`
(app.py lines 62-69). -/
structure GlobalState where
  paused : Bool
  stop_sending : Bool
  current_index : Int
  total_emails : Int
  sent_emails : Nat
deriving DecidableEq

/-- Python `range(a, b)` over unbounded integers, as a list. -/
def intRange (a b : Int) : List Int :=
  (List.range (b - a).toNat).map (fun (k : Nat) => a + (k : Int))

/-- Python `str.replace` over character lists: every non-overlapping
occurrence of `pat`, scanning left to right, is replaced by `rep`.  The
`fuel` argument (instantiated with the length of the string, an upper
bound on the number of scanning steps) makes the recursion structural;
every call site uses a non-empty `pat`, so at least one character is
consumed per step and the fuel never runs out. -/
def replaceFuel (pat rep : List Char) : Nat → List Char → List Char
  | 0, s => s
  | _ + 1, [] => []
  | fuel + 1, c :: rest =>
    if pat.isPrefixOf (c :: rest) then
      rep ++ replaceFuel pat rep fuel ((c :: rest).drop pat.length)
    else
      c :: replaceFuel pat rep fuel rest

/-- Python `str.replace(pat, rep)` (all occurrences, leftmost first,
non-overlapping). -/
def pyReplace (s pat rep : String) : String :=
  ⟨replaceFuel pat.data rep.data s.data.length s.data⟩

/-- Python `str.strip()`: remove leading and trailing whitespace. -/
def pyStrip (s : String) : String :=
  ⟨((s.data.dropWhile Char.isWhitespace).reverse.dropWhile Char.isWhitespace).reverse⟩

/-- Model of `df.iloc[i]` with pandas semantics: a nonnegative index is looked up
directly, a negative index counts from the end (`rows[n + i]`), and any
other index raises `IndexError` (returned as `none`). -/
def iloc (rows : List Row) (i : Int) : Option Row :=
  if 0 ≤ i then
    if i < (rows.length : Int) then rows[i.toNat]? else none
  else
    if -(rows.length : Int) ≤ i then rows[((rows.length : Int) + i).toNat]? else none

/-- Subject personalization (app.py lines 161-163): literal chained
substitution of the three recognized subject tokens.  Note the source does
not substitute the sender-name token in the subject. -/
def personalizeSubject (subject first_name last_name company_name : String) : String :=
  pyReplace (pyReplace (pyReplace subject "{first_name}" first_name)
    "{last_name}" last_name) "{company_name}" company_name

/-- Body personalization (app.py lines 164-167): the three recipient tokens
plus the sender-name token. -/
def personalizeBody (body first_name last_name company_name sender_name : String) : String :=
  pyReplace (pyReplace (pyReplace (pyReplace body "{first_name}" first_name)
    "{last_name}" last_name) "{company_name}" company_name) "{sender_name}" sender_name

/-- HTML conversion of the rendered body (app.py lines 170-171): the
newline-plus-bullet sequence becomes a break plus HTML bullet entity, every
remaining newline becomes a break, and the result is wrapped in the minimal
HTML envelope. -/
def htmlContent (body : String) : String :=
  "<html><body>" ++ pyReplace (pyReplace body "\n•" "<br>&bull;") "\n" "<br>" ++ "</body></html>"

/-- How one pass of the `for` loop body ended. -/
inductive LoopExit
  | finished
  | broke
  | crashed
deriving DecidableEq

/-- The engine-local loop state: the two shared counters it writes
(`sent_emails`, `current_index`), the local rotation counter
(`config_index`) and success counter (`count`), plus ghost trace fields. -/
structure RunState where
  sent_emails : Nat
  current_index : Int
  config_index : Nat
  count : Nat
  delays : Nat
  usedCreds : List Nat
  successIdxs : List Int
deriving DecidableEq

/-- The `for i in range(current_index, max_limit)` loop of
`send_bulk_emails` (app.py lines 132-203), one list element per value of
`i`.  Per iteration: the stop check (the paused wait is absent because
`paused` is reset to `false` at job start and, as shown by
`pausedWait_sleeps_holding_lock`, could never clear once observed true);
then `row = df.iloc[i]` and `config = email_configs[config_index]` (either
failing uncaught kills the thread: `crashed`); the empty-address skip; and
the `try:` delivery block whose outcome is `sendO i`.  On success the code
sleeps the pacing delay, increments `sent_emails`, sets
`current_index = i + 1`, rotates `config_index` and increments `count`; on
failure it just continues. -/
def runLoop (configs : List EmailConfig) (rows : List Row)
    (stopO sendO : Int → Bool) : List Int → RunState → RunState × LoopExit
  | [], st => (st, .finished)
  | i :: rest, st =>
    if stopO i then (st, .broke)
    else
      match iloc rows i, configs[st.config_index]? with
      | some row, some _cfg =>
        if pyStrip row.email = "" then
          runLoop configs rows stopO sendO rest st
        else
          if sendO i then
            runLoop configs rows stopO sendO rest
              { sent_emails := st.sent_emails + 1
                current_index := i + 1
                config_index := (st.config_index + 1) % configs.length
                count := st.count + 1
                delays := st.delays + 1
                usedCreds := st.usedCreds ++ [st.config_index]
                successIdxs := st.successIdxs ++ [i] }
          else
            runLoop configs rows stopO sendO rest
              { st with usedCreds := st.usedCreds ++ [st.config_index] }
      | _, _ => (st, .crashed)

/-- Window normalization at job start (app.py lines 119-123):
`min_limit = max(1, min_limit)`, `max_limit = min(len(df), max_limit)`,
swap if still inverted. -/
def normalizeWindow (min_limit max_limit n : Int) : Int × Int :=
  let minL := max 1 min_limit
  let maxL := min n max_limit
  if minL > maxL then (maxL, minL) else (minL, maxL)

/-- The target count `total_emails = max_limit - min_limit + 1` over the normalized window
(app.py line 126). -/
def totalTarget (min_limit max_limit n : Int) : Int :=
  (normalizeWindow min_limit max_limit n).2 - (normalizeWindow min_limit max_limit n).1 + 1

/-- The index list the dispatch loop iterates (app.py line 132):
`range(current_index, max_limit)` where `max_limit` is the normalized upper
bound and `current_index` is whatever the start route stored. -/
def loopIndices (current_index max_limit : Int) : List Int :=
  intRange current_index max_limit

/-- How a call of `send_bulk_emails` ended: refused for lack of
configurations (line 108-110), refused because the spreadsheet could not be
read (line 112-116), or ran the loop with the given exit. -/
inductive BulkOutcome
  | noConfigs
  | readError
  | ran (exit : LoopExit)
deriving DecidableEq

/-- The engine-local state at loop entry: `sent_emails` was just zeroed
(line 127), `current_index` is read from the shared state (line 132),
`config_index = 0` and `count = 0` (lines 129-130). -/
def initRun (current_index : Int) : RunState :=
  { sent_emails := 0
    current_index := current_index
    config_index := 0
    count := 0
    delays := 0
    usedCreds := []
    successIdxs := [] }

/-- The engine `send_bulk_emails(excel_file, delay, min_limit, max_limit)`
(app.py lines 104-205).  `rows?` is the result of `pd.read_excel`
(`none` = exception).  Returns the shared state after the engine thread
finishes together with the way it ended. -/
def send_bulk_emails (configs : List EmailConfig) (rows? : Option (List Row))
    (min_limit max_limit : Int) (stopO sendO : Int → Bool) (st : GlobalState) :
    GlobalState × BulkOutcome :=
  if configs.isEmpty then (st, .noConfigs)
  else
    match rows? with
    | none => (st, .readError)
    | some rows =>
      let nw := normalizeWindow min_limit max_limit (rows.length : Int)
      let st1 : GlobalState :=
        { st with total_emails := totalTarget min_limit max_limit (rows.length : Int)
                  sent_emails := 0 }
      let res := runLoop configs rows stopO sendO
        (loopIndices st1.current_index nw.2) (initRun st1.current_index)
      ({ st1 with sent_emails := res.1.sent_emails
                  current_index := res.1.current_index }, .ran res.2)

/-- The reset of the shared globals performed by the `/send` route before
spawning the engine thread (app.py lines 255-259).  Note `current_index` is
set from the raw requested `min_limit`, before any clamping. -/
def resetState (min_limit : Int) : GlobalState :=
  { paused := false
    stop_sending := false
    current_index := min_limit - 1
    total_emails := 0
    sent_emails := 0 }

/-- The POST branch of the `/send` route (app.py lines 241-264) composed
with the engine thread it spawns.  `threadAlive` is
`email_thread and email_thread.is_alive()`.  The returned `Option
BulkOutcome` is `none` when no engine was spawned; the `List String` holds
the log lines the route itself emits. -/
def start_job (threadAlive : Bool) (configs : List EmailConfig)
    (rows? : Option (List Row)) (min_limit max_limit : Int)
    (stopO sendO : Int → Bool) (st : GlobalState) :
    GlobalState × Option BulkOutcome × List String :=
  if threadAlive then (st, none, ["Already sending emails."])
  else
    let r := send_bulk_emails configs rows? min_limit max_limit stopO sendO
      (resetState min_limit)
    (r.1, some r.2, [])

/-- The last position the shared cursor was set to by a run that delivered
the rows in `l` successfully (in order): one past the last successful index,
or the starting cursor when nothing succeeded. -/
def lastCursor (c0 : Int) : List Int → Int
  | [] => c0
  | i :: t => lastCursor (i + 1) t

/-- Whether row `i` exists and would be attempted (non-empty address),
app.py lines 141-158. -/
def rowAttempted (rows : List Row) (i : Int) : Bool :=
  match iloc rows i with
  | some row => pyStrip row.email != ""
  | none => false

lemma intRange_length (a b : Int) : (intRange a b).length = (b - a).toNat := by
  unfold intRange
  rw [List.length_map, List.length_range]

lemma mem_intRange {a b j : Int} : j ∈ intRange a b ↔ a ≤ j ∧ j < b := by
  simp only [intRange, List.mem_map, List.mem_range]
  constructor
  · rintro ⟨k, hk, rfl⟩
    omega
  · rintro ⟨h1, h2⟩
    exact ⟨(j - a).toNat, by omega, by omega⟩

lemma intRange_pairwise (a b : Int) : (intRange a b).Pairwise (· < ·) :=
  (List.pairwise_lt_range _).map _ (fun _ _ h => by omega)

lemma intRange_head {a b : Int} (h : a < b) : (intRange a b).head? = some a := by
  unfold intRange
  rw [show (b - a).toNat = (b - a - 1).toNat + 1 from by omega, List.range_succ_eq_map]
  simp

lemma lastCursor_cons (c0 i : Int) (t : List Int) :
    lastCursor c0 (i :: t) = lastCursor (i + 1) t := rfl

section RunLoopLemmas

variable (configs : List EmailConfig) (rows : List Row) (stopO sendO : Int → Bool)

lemma runLoop_append (l₁ l₂ : List Int) (st : RunState) :
    runLoop configs rows stopO sendO (l₁ ++ l₂) st =
      match runLoop configs rows stopO sendO l₁ st with
      | (st', LoopExit.finished) => runLoop configs rows stopO sendO l₂ st'
      | r => r := by
  induction l₁ generalizing st with
  | nil => simp [runLoop]
  | cons i rest ih =>
    cases hs : stopO i with
    | true => simp [runLoop, hs]
    | false =>
      cases hr : iloc rows i with
      | none => simp [runLoop, hs, hr]
      | some row =>
        cases hc : configs[st.config_index]? with
        | none => simp [runLoop, hs, hr, hc]
        | some cfg =>
          by_cases he : pyStrip row.email = "" <;>
            cases hd : sendO i <;>
            simp [runLoop, hs, hr, hc, he, hd, ih]

lemma runLoop_sent_mono (l : List Int) (st : RunState) :
    st.sent_emails ≤ (runLoop configs rows stopO sendO l st).1.sent_emails := by
  induction l generalizing st with
  | nil => simp [runLoop]
  | cons i rest ih =>
    cases hs : stopO i with
    | true => simp [runLoop, hs]
    | false =>
      cases hr : iloc rows i with
      | none => simp [runLoop, hs, hr]
      | some row =>
        cases hc : configs[st.config_index]? with
        | none => simp [runLoop, hs, hr, hc]
        | some cfg =>
          by_cases he : pyStrip row.email = ""
          · simpa [runLoop, hs, hr, hc, he] using ih st
          · cases hd : sendO i
            · simpa [runLoop, hs, hr, hc, he, hd] using
                ih { st with usedCreds := st.usedCreds ++ [st.config_index] }
            · refine le_trans (Nat.le_succ _) ?_
              simpa [runLoop, hs, hr, hc, he, hd] using
                ih { sent_emails := st.sent_emails + 1
                     current_index := i + 1
                     config_index := (st.config_index + 1) % configs.length
                     count := st.count + 1
                     delays := st.delays + 1
                     usedCreds := st.usedCreds ++ [st.config_index]
                     successIdxs := st.successIdxs ++ [i] }

lemma runLoop_sent_le (l : List Int) (st : RunState) :
    (runLoop configs rows stopO sendO l st).1.sent_emails ≤ st.sent_emails + l.length := by
  induction l generalizing st with
  | nil => simp [runLoop]
  | cons i rest ih =>
    cases hs : stopO i with
    | true => simp [runLoop, hs]
    | false =>
      cases hr : iloc rows i with
      | none => simp [runLoop, hs, hr]
      | some row =>
        cases hc : configs[st.config_index]? with
        | none => simp [runLoop, hs, hr, hc]
        | some cfg =>
          by_cases he : pyStrip row.email = ""
          · refine le_trans ?_ (by simp : st.sent_emails + rest.length ≤
              st.sent_emails + (i :: rest).length)
            simpa [runLoop, hs, hr, hc, he] using ih st
          · cases hd : sendO i
            · refine le_trans ?_ (by simp : st.sent_emails + rest.length ≤
                st.sent_emails + (i :: rest).length)
              simpa [runLoop, hs, hr, hc, he, hd] using
                ih { st with usedCreds := st.usedCreds ++ [st.config_index] }
            · have := ih { sent_emails := st.sent_emails + 1
                           current_index := i + 1
                           config_index := (st.config_index + 1) % configs.length
                           count := st.count + 1
                           delays := st.delays + 1
                           usedCreds := st.usedCreds ++ [st.config_index]
                           successIdxs := st.successIdxs ++ [i] }
              simp only [runLoop, hs, hr, hc, he, hd] at this ⊢
              simp at this ⊢
              omega

lemma runLoop_cursor_mono (l : List Int) (st : RunState)
    (hpw : l.Pairwise (· < ·)) (hlb : ∀ j ∈ l, st.current_index ≤ j + 1) :
    st.current_index ≤ (runLoop configs rows stopO sendO l st).1.current_index := by
  induction l generalizing st with
  | nil => simp [runLoop]
  | cons i rest ih =>
    have hpw' : rest.Pairwise (· < ·) := (List.pairwise_cons.mp hpw).2
    have hhd : ∀ j ∈ rest, i < j := (List.pairwise_cons.mp hpw).1
    cases hs : stopO i with
    | true => simp [runLoop, hs]
    | false =>
      cases hr : iloc rows i with
      | none => simp [runLoop, hs, hr]
      | some row =>
        cases hc : configs[st.config_index]? with
        | none => simp [runLoop, hs, hr, hc]
        | some cfg =>
          by_cases he : pyStrip row.email = ""
          · simpa [runLoop, hs, hr, hc, he] using
              ih st hpw' (fun j hj => hlb j (List.mem_cons_of_mem _ hj))
          · cases hd : sendO i
            · simpa [runLoop, hs, hr, hc, he, hd] using
                ih { st with usedCreds := st.usedCreds ++ [st.config_index] } hpw'
                  (fun j hj => hlb j (List.mem_cons_of_mem _ hj))
            · have h1 : st.current_index ≤ i + 1 := hlb i (List.mem_cons_self _ _)
              have h2 := ih { sent_emails := st.sent_emails + 1
                              current_index := i + 1
                              config_index := (st.config_index + 1) % configs.length
                              count := st.count + 1
                              delays := st.delays + 1
                              usedCreds := st.usedCreds ++ [st.config_index]
                              successIdxs := st.successIdxs ++ [i] } hpw'
                (fun j hj => by
                  have := hhd j hj
                  simp only []
                  omega)
              refine le_trans h1 ?_
              simpa [runLoop, hs, hr, hc, he, hd] using h2

lemma runLoop_cursor_le (l : List Int) (st : RunState) (B : Int)
    (hub : ∀ j ∈ l, j + 1 ≤ B) (h0 : st.current_index ≤ B) :
    (runLoop configs rows stopO sendO l st).1.current_index ≤ B := by
  induction l generalizing st with
  | nil => simpa [runLoop] using h0
  | cons i rest ih =>
    have hub' : ∀ j ∈ rest, j + 1 ≤ B := fun j hj => hub j (List.mem_cons_of_mem _ hj)
    cases hs : stopO i with
    | true => simpa [runLoop, hs] using h0
    | false =>
      cases hr : iloc rows i with
      | none => simpa [runLoop, hs, hr] using h0
      | some row =>
        cases hc : configs[st.config_index]? with
        | none => simpa [runLoop, hs, hr, hc] using h0
        | some cfg =>
          by_cases he : pyStrip row.email = ""
          · simpa [runLoop, hs, hr, hc, he] using ih st hub' h0
          · cases hd : sendO i
            · simpa [runLoop, hs, hr, hc, he, hd] using
                ih { st with usedCreds := st.usedCreds ++ [st.config_index] } hub' h0
            · have h1 : i + 1 ≤ B := hub i (List.mem_cons_self _ _)
              simpa [runLoop, hs, hr, hc, he, hd] using
                ih { sent_emails := st.sent_emails + 1
                     current_index := i + 1
                     config_index := (st.config_index + 1) % configs.length
                     count := st.count + 1
                     delays := st.delays + 1
                     usedCreds := st.usedCreds ++ [st.config_index]
                     successIdxs := st.successIdxs ++ [i] } hub' h1

lemma runLoop_delays (l : List Int) (st : RunState) (h : st.delays = st.count) :
    (runLoop configs rows stopO sendO l st).1.delays =
      (runLoop configs rows stopO sendO l st).1.count := by
  induction l generalizing st with
  | nil => simpa [runLoop] using h
  | cons i rest ih =>
    cases hs : stopO i with
    | true => simpa [runLoop, hs] using h
    | false =>
      cases hr : iloc rows i with
      | none => simpa [runLoop, hs, hr] using h
      | some row =>
        cases hc : configs[st.config_index]? with
        | none => simpa [runLoop, hs, hr, hc] using h
        | some cfg =>
          by_cases he : pyStrip row.email = ""
          · simpa [runLoop, hs, hr, hc, he] using ih st h
          · cases hd : sendO i
            · simpa [runLoop, hs, hr, hc, he, hd] using
                ih { st with usedCreds := st.usedCreds ++ [st.config_index] } h
            · simpa [runLoop, hs, hr, hc, he, hd] using
                ih { sent_emails := st.sent_emails + 1
                     current_index := i + 1
                     config_index := (st.config_index + 1) % configs.length
                     count := st.count + 1
                     delays := st.delays + 1
                     usedCreds := st.usedCreds ++ [st.config_index]
                     successIdxs := st.successIdxs ++ [i] } (by simpa using h)

lemma runLoop_traces (l : List Int) (st : RunState) :
    ∃ next : List Int,
      (runLoop configs rows stopO sendO l st).1.successIdxs = st.successIdxs ++ next ∧
      (runLoop configs rows stopO sendO l st).1.current_index =
        lastCursor st.current_index next ∧
      next.Sublist l ∧ ∀ i ∈ next, sendO i = true := by
  induction l generalizing st with
  | nil => exact ⟨[], by simp [runLoop, lastCursor]⟩
  | cons i rest ih =>
    cases hs : stopO i with
    | true => exact ⟨[], by simp [runLoop, hs, lastCursor]⟩
    | false =>
      cases hr : iloc rows i with
      | none => exact ⟨[], by simp [runLoop, hs, hr, lastCursor]⟩
      | some row =>
        cases hc : configs[st.config_index]? with
        | none => exact ⟨[], by simp [runLoop, hs, hr, hc, lastCursor]⟩
        | some cfg =>
          by_cases he : pyStrip row.email = ""
          · obtain ⟨next, h1, h2, h3, h4⟩ := ih st
            exact ⟨next, by simpa [runLoop, hs, hr, hc, he] using h1,
              by simpa [runLoop, hs, hr, hc, he] using h2, h3.cons i, h4⟩
          · cases hd : sendO i
            · obtain ⟨next, h1, h2, h3, h4⟩ :=
                ih { st with usedCreds := st.usedCreds ++ [st.config_index] }
              exact ⟨next, by simpa [runLoop, hs, hr, hc, he, hd] using h1,
                by simpa [runLoop, hs, hr, hc, he, hd] using h2, h3.cons i, h4⟩
            · obtain ⟨next, h1, h2, h3, h4⟩ :=
                ih { sent_emails := st.sent_emails + 1
                     current_index := i + 1
                     config_index := (st.config_index + 1) % configs.length
                     count := st.count + 1
                     delays := st.delays + 1
                     usedCreds := st.usedCreds ++ [st.config_index]
                     successIdxs := st.successIdxs ++ [i] }
              refine ⟨i :: next, ?_, ?_, h3.cons₂ i, ?_⟩
              · simpa [runLoop, hs, hr, hc, he, hd, List.append_assoc] using h1
              · rw [lastCursor_cons]
                simpa [runLoop, hs, hr, hc, he, hd] using h2
              · intro j hj
                rcases List.mem_cons.mp hj with h | h
                · subst h; exact hd
                · exact h4 j h

lemma runLoop_all_success (hne : configs ≠ []) (l : List Int) (st : RunState)
    (hstop : ∀ i ∈ l, stopO i = false)
    (hsend : ∀ i ∈ l, sendO i = true)
    (hrow : ∀ i ∈ l, rowAttempted rows i = true)
    (hci : st.config_index = st.count % configs.length) :
    (runLoop configs rows stopO sendO l st).1.usedCreds
        = st.usedCreds ++
          (List.range l.length).map (fun j => (st.count + j) % configs.length) ∧
      (runLoop configs rows stopO sendO l st).1.count = st.count + l.length := by
  induction l generalizing st with
  | nil => simp [runLoop]
  | cons i rest ih =>
    have hs : stopO i = false := hstop i (List.mem_cons_self _ _)
    have hd : sendO i = true := hsend i (List.mem_cons_self _ _)
    have ha : rowAttempted rows i = true := hrow i (List.mem_cons_self _ _)
    obtain ⟨row, hr, he⟩ : ∃ row, iloc rows i = some row ∧ ¬ pyStrip row.email = "" := by
      unfold rowAttempted at ha
      cases hr : iloc rows i with
      | none => rw [hr] at ha; exact absurd ha (by simp)
      | some row => rw [hr] at ha; exact ⟨row, rfl, by simpa using ha⟩
    have hlen : 0 < configs.length := List.length_pos.mpr hne
    have hlt : st.config_index < configs.length := hci ▸ Nat.mod_lt _ hlen
    have hc := List.getElem?_eq_getElem hlt
    have hci' : ((st.config_index + 1) % configs.length) =
        (st.count + 1) % configs.length := by
      rw [hci]; exact Nat.mod_add_mod st.count configs.length 1
    obtain ⟨ih1, ih2⟩ := ih
      { sent_emails := st.sent_emails + 1
        current_index := i + 1
        config_index := (st.config_index + 1) % configs.length
        count := st.count + 1
        delays := st.delays + 1
        usedCreds := st.usedCreds ++ [st.config_index]
        successIdxs := st.successIdxs ++ [i] }
      (fun j hj => hstop j (List.mem_cons_of_mem _ hj))
      (fun j hj => hsend j (List.mem_cons_of_mem _ hj))
      (fun j hj => hrow j (List.mem_cons_of_mem _ hj))
      (by simpa using hci')
    have hstep : runLoop configs rows stopO sendO (i :: rest) st
        = runLoop configs rows stopO sendO rest
            { sent_emails := st.sent_emails + 1
              current_index := i + 1
              config_index := (st.config_index + 1) % configs.length
              count := st.count + 1
              delays := st.delays + 1
              usedCreds := st.usedCreds ++ [st.config_index]
              successIdxs := st.successIdxs ++ [i] } := by
      simp [runLoop, hs, hr, hc, he, hd]
    have hfun : ((fun j => (st.count + j) % configs.length) ∘ Nat.succ)
        = (fun j => (st.count + 1 + j) % configs.length) := by
      funext j
      simp only [Function.comp_apply]
      rw [show st.count + Nat.succ j = st.count + 1 + j from by omega]
    constructor
    · rw [hstep, ih1, hci]
      simp only [List.length_cons, List.range_succ_eq_map, List.map_cons, List.map_map,
        hfun, Nat.add_zero]
      simp [List.append_assoc]
    · rw [hstep, ih2]
      simp
      omega

end RunLoopLemmas

lemma count_range_map_mod (N : Nat) (hN : 0 < N) (r : Nat) (hr : r < N) :
    ∀ K : Nat, ((List.range K).map (fun j => j % N)).count r
      = K / N + (if r < K % N then 1 else 0) := by
  intro K
  induction K with
  | zero => simp
  | succ K ih =>
    rw [List.range_succ, List.map_append, List.count_append, ih]
    have hsing : ((List.map (fun j => j % N) [K]).count r)
        = if K % N = r then 1 else 0 := by
      simp [List.count_cons]
    rw [hsing]
    by_cases hcase : K % N + 1 = N
    · have hK1 : K + 1 = N * (K / N + 1) := by
        have := Nat.div_add_mod K N
        rw [Nat.mul_add, Nat.mul_one]
        omega
      have hdiv : (K + 1) / N = K / N + 1 := by
        rw [hK1, Nat.mul_div_cancel_left _ hN]
      have hmod : (K + 1) % N = 0 := by
        rw [hK1]
        exact Nat.mul_mod_right N _
      rw [hdiv, hmod]
      split_ifs <;> omega
    · have hlt : K % N + 1 < N := by
        have := Nat.mod_lt K hN
        omega
      have hK1 : K + 1 = (K % N + 1) + (K / N) * N := by
        have := Nat.div_add_mod K N
        rw [Nat.mul_comm] at this
        omega
      have hdiv : (K + 1) / N = K / N := by
        rw [hK1, Nat.add_mul_div_right _ _ hN, Nat.div_eq_of_lt hlt, Nat.zero_add]
      have hmod : (K + 1) % N = K % N + 1 := by
        rw [hK1, Nat.add_mul_mod_self_right, Nat.mod_eq_of_lt hlt]
      rw [hdiv, hmod]
      split_ifs <;> omega

lemma normalizeWindow_minmax (a b n : Int) :
    (normalizeWindow a b n).1 = min (max 1 a) (min n b) ∧
    (normalizeWindow a b n).2 = max (max 1 a) (min n b) := by
  simp only [normalizeWindow]
  rcases le_or_lt (max 1 a) (min n b) with h | h
  · rw [if_neg (not_lt.mpr h)]
    exact ⟨(min_eq_left h).symm, (max_eq_right h).symm⟩
  · rw [if_pos h]
    exact ⟨(min_eq_right h.le).symm, (max_eq_left h.le).symm⟩

lemma normalizeWindow_fst_le_snd (a b n : Int) :
    (normalizeWindow a b n).1 ≤ (normalizeWindow a b n).2 := by
  obtain ⟨h1, h2⟩ := normalizeWindow_minmax a b n
  rw [h1, h2]
  exact min_le_max

lemma normalizeWindow_fst_le (a b n : Int) (ha : 1 ≤ a) :
    (normalizeWindow a b n).1 ≤ a := by
  obtain ⟨h1, _⟩ := normalizeWindow_minmax a b n
  rw [h1, max_eq_right ha]
  exact min_le_left _ _

/-- The 0-based row indices of the normalized 1-based window
`[minLimit, maxLimit]` — per the spec, the recipients that `totalTarget`
counts. -/
def windowIndices (minLimit maxLimit : Int) : List Int :=
  intRange (minLimit - 1) maxLimit

/-- Atomic events of the engine thread and the start route that are
relevant to lock discipline. -/
inductive EngineEvent
  | acquire
  | release
  | readStop
  | readPaused
  | sleepPause
  | writeShared
deriving DecidableEq

/-- The per-recipient control check of the engine (app.py lines 133-139),
as the sequence of atomic events it performs when `stop_sending` reads
false: `with state_lock:` acquires the lock, `if stop_sending:` reads the
stop flag, then `while paused:` reads `paused`; each of the `polls` times
it reads true it executes `time.sleep(1)` and re-reads, all before the
`with` block releases the lock on exit. -/
def pausedCheckTrace (polls : Nat) : List EngineEvent :=
  [EngineEvent.acquire, EngineEvent.readStop] ++
    (List.replicate polls [EngineEvent.readPaused, EngineEvent.sleepPause]).flatten ++
    [EngineEvent.readPaused, EngineEvent.release]

/-- The shared-state writes performed by the `/send` route before spawning
the engine thread (app.py lines 255-259): five writes to the globals with
no lock acquisition around them. -/
def startResetTrace : List EngineEvent :=
  [EngineEvent.writeShared, EngineEvent.writeShared, EngineEvent.writeShared,
    EngineEvent.writeShared, EngineEvent.writeShared]

/-- How many lock acquisitions are outstanding just before the event at
position `n` of a trace executes. -/
def locksHeldBefore (t : List EngineEvent) (n : Nat) : Nat :=
  (t.take n).count EngineEvent.acquire - (t.take n).count EngineEvent.release

/-- A fixture credential record used by the concrete evaluation theorems. -/
def cfgA : EmailConfig := ⟨"sender@example.com", "smtp.example.com", 25, "Sam", none⟩

/-- A fixture recipient row with a valid (non-empty) address. -/
def rowA : Row := ⟨"user@example.com", "Ada", "Lovelace", "Acme", "", ""⟩

/-- A fixture recipient row with an empty address. -/
def rowNoEmail : Row := ⟨"", "Ada", "Lovelace", "Acme", "", ""⟩

/-- C3 (code evaluated at the failing input): in the engine's control-check
section, with `paused` observed true once, the `time.sleep(1)` at trace
position 3 executes while the mutual-exclusion lock is held (the claim says
the lock is never held across a sleep); moreover the start route's resets
of the shared JobState fields perform no lock acquisition at all (the claim
says every such write happens under the lock).  Because `/resume` and
`/stop` must take the same lock to clear `paused` or set `stop_sending`,
the paused wait can in fact never be exited once entered. -/
theorem pausedWait_sleeps_holding_lock :
    (pausedCheckTrace 1).get? 3 = some EngineEvent.sleepPause ∧
    0 < locksHeldBefore (pausedCheckTrace 1) 3 ∧
    startResetTrace.count EngineEvent.acquire = 0 ∧
    EngineEvent.writeShared ∈ startResetTrace := by decide

/-- C5 counterexample: starting a job with an empty credential list from a
state with `paused = true`, `stop_sending = true`, nonzero counters does
mutate the shared JobState — the route resets every field before the
engine's credential check runs — contradicting the claim that no JobState
field is mutated; the second conjunct shows the engine itself then refused
with the no-configurations error. -/
theorem start_resets_state_despite_no_configs :
    (start_job false [] (some []) 10 20 (fun _ => false) (fun _ => false)
        { paused := true, stop_sending := true, current_index := 42,
          total_emails := 7, sent_emails := 5 }).1 ≠
      { paused := true, stop_sending := true, current_index := 42,
        total_emails := 7, sent_emails := 5 } ∧
    (start_job false [] (some []) 10 20 (fun _ => false) (fun _ => false)
        { paused := true, stop_sending := true, current_index := 42,
          total_emails := 7, sent_emails := 5 }).2.1 = some BulkOutcome.noConfigs := by
  decide

/-- C5 (amended): when no delivery credentials are configured the engine
itself refuses to run before doing any work — it returns with the
no-configurations error and leaves the state it was handed completely
unchanged (in the program the failure is surfaced only through the error
log; the start route has however already reset the shared fields before
the engine's check, see `start_resets_state_despite_no_configs`). -/
theorem no_configs_engine_no_mutation (rows? : Option (List Row)) (a b : Int)
    (stopO sendO : Int → Bool) (st : GlobalState) :
    send_bulk_emails [] rows? a b stopO sendO st = (st, BulkOutcome.noConfigs) := by
  simp [send_bulk_emails]

/-- C6: a start request arriving while the engine thread is still alive is
rejected: the shared state is returned untouched, no engine is spawned
(`none`), and the route logs the already-active indication. -/
theorem start_rejected_while_running (configs : List EmailConfig)
    (rows? : Option (List Row)) (a b : Int) (stopO sendO : Int → Bool)
    (st : GlobalState) :
    start_job true configs rows? a b stopO sendO st
      = (st, none, ["Already sending emails."]) := by
  simp [start_job]

/-- C8: the window normalization clamps the requested lower bound to at
least 1 and the requested upper bound to at most the source length, and the
swap on inversion makes the result exactly the sorted pair of the two
clamped values, with `totalTarget` the size of that window; in particular
requested bounds 50 and 10 over 100 rows normalize to the window
`[10, 50]` with `totalTarget = 41`. -/
theorem window_normalization :
    (∀ a b n : Int,
        (normalizeWindow a b n).1 = min (max 1 a) (min n b) ∧
        (normalizeWindow a b n).2 = max (max 1 a) (min n b) ∧
        (normalizeWindow a b n).1 ≤ (normalizeWindow a b n).2 ∧
        totalTarget a b n
          = (normalizeWindow a b n).2 - (normalizeWindow a b n).1 + 1) ∧
    normalizeWindow 50 10 100 = (10, 50) ∧ totalTarget 50 10 100 = 41 := by
  refine ⟨fun a b n => ⟨(normalizeWindow_minmax a b n).1,
    (normalizeWindow_minmax a b n).2, normalizeWindow_fst_le_snd a b n, rfl⟩,
    by decide, by decide⟩

/-- The subject renderer the claim describes: literal substitution of all
four recognized tokens, including the sender-name token (quoted here from
the spec for comparison with the code's `personalizeSubject`). -/
def renderSubjectClaimed
    (subject first_name last_name company_name sender_name : String) : String :=
  pyReplace (pyReplace (pyReplace (pyReplace subject "{first_name}" first_name)
    "{last_name}" last_name) "{company_name}" company_name) "{sender_name}" sender_name

/-- C9 counterexample: the code's subject rendering leaves the sender-name
token untouched, while the claimed rendering substitutes it, so on the
subject template consisting of that token the two disagree. -/
theorem subject_sender_token_not_substituted :
    personalizeSubject "{sender_name}" "Ada" "Lovelace" "Acme" = "{sender_name}" ∧
    renderSubjectClaimed "{sender_name}" "Ada" "Lovelace" "Acme" "Sam" = "Sam" ∧
    personalizeSubject "{sender_name}" "Ada" "Lovelace" "Acme"
      ≠ renderSubjectClaimed "{sender_name}" "Ada" "Lovelace" "Acme" "Sam" := by
  decide

/-- C9 (amended): rendering substitutes the first-name, last-name and
company-name tokens in the subject (but not the sender-name token, which
passes through), substitutes all four tokens in the body with absent
fields substituting as the empty string and unrecognized tokens passing
through unchanged, and the HTML conversion turns newline-plus-bullet into a
break plus bullet entity and every remaining newline into a break before
wrapping the body; demonstrated on templates exercising every clause. -/
theorem render_token_substitution :
    personalizeSubject
        "Hi {first_name} {last_name} of {company_name}, {unknown} {sender_name}"
        "Ada" "Lovelace" "Acme"
      = "Hi Ada Lovelace of Acme, {unknown} {sender_name}" ∧
    personalizeBody
        "Dear {first_name} {last_name},\n• {company_name}\n{sender_name} {unknown}"
        "Ada" "" "Acme" "Sam"
      = "Dear Ada ,\n• Acme\nSam {unknown}" ∧
    htmlContent "Dear Ada,\n• Acme\nBye"
      = "<html><body>Dear Ada,<br>&bull; Acme<br>Bye</body></html>" := by
  decide

/-- C10: the dispatch loop's lower bound is the raw requested `min_limit`
minus 1, stored as the cursor by the start route before any clamping or
swapping; whenever normalization changed the lower bound (clamping of a
value below 1, or the swap), and the loop has at least one iteration, the
index list actually iterated differs from the 0-based index list of the
normalized window that `totalTarget` is computed from. -/
theorem loop_bounds_use_raw_min (a b n : Int)
    (h1 : (normalizeWindow a b n).1 ≠ a)
    (h2 : a - 1 < (normalizeWindow a b n).2) :
    (resetState a).current_index = a - 1 ∧
    loopIndices (resetState a).current_index (normalizeWindow a b n).2
      ≠ windowIndices (normalizeWindow a b n).1 (normalizeWindow a b n).2 := by
  refine ⟨rfl, fun heq => h1 ?_⟩
  have hw : (windowIndices (normalizeWindow a b n).1 (normalizeWindow a b n).2).head?
      = some ((normalizeWindow a b n).1 - 1) := by
    have := normalizeWindow_fst_le_snd a b n
    exact intRange_head (by omega)
  have hl : (loopIndices (resetState a).current_index (normalizeWindow a b n).2).head?
      = some (a - 1) := intRange_head (by simpa [resetState] using h2)
  rw [heq, hw] at hl
  have := Option.some.inj hl
  omega

/-- C10 witness: requested bounds 50 and 10 over a 100-row source satisfy
both hypotheses, and there the loop iterates `[49]` while the normalized
window's indices are `[9, ..., 49]`. -/
theorem loop_bounds_use_raw_min_witness :
    (normalizeWindow 50 10 100).1 ≠ 50 ∧
    (50 : Int) - 1 < (normalizeWindow 50 10 100).2 ∧
    ((resetState 50).current_index = 50 - 1 ∧
      loopIndices (resetState 50).current_index (normalizeWindow 50 10 100).2
        ≠ windowIndices (normalizeWindow 50 10 100).1 (normalizeWindow 50 10 100).2) :=
  ⟨by decide, by decide, loop_bounds_use_raw_min 50 10 100 (by decide) (by decide)⟩

/-- Whether row `i` exists and has an empty (post-strip) address, i.e. the
engine would silently skip it (app.py lines 150, 157-158). -/
def rowSkipped (rows : List Row) (i : Int) : Bool :=
  match iloc rows i with
  | some row => pyStrip row.email == ""
  | none => false

/-- C4 (amended): processing a recipient row whose address strips to the
empty string leaves the loop state bit-for-bit unchanged — `sent_emails`,
`current_index` (contrary to the claim, the cursor is *not* advanced), the
rotation counter, the delay count and the traces — and the loop continues
with the remaining recipients, so the job is never aborted and the row is
counted neither as failure nor as success. -/
theorem empty_email_row_skipped (configs : List EmailConfig) (rows : List Row)
    (stopO sendO : Int → Bool) (i : Int) (rest : List Int) (st : RunState)
    (hs : stopO i = false)
    (hsk : rowSkipped rows i = true)
    (hc : (configs[st.config_index]?).isSome = true) :
    runLoop configs rows stopO sendO (i :: rest) st
      = runLoop configs rows stopO sendO rest st := by
  obtain ⟨row, hr, he⟩ : ∃ row, iloc rows i = some row ∧ pyStrip row.email = "" := by
    unfold rowSkipped at hsk
    cases hr : iloc rows i with
    | none => rw [hr] at hsk; exact absurd hsk (by simp)
    | some row => rw [hr] at hsk; exact ⟨row, rfl, by simpa using hsk⟩
  obtain ⟨cfg, hc'⟩ := Option.isSome_iff_exists.mp hc
  simp [runLoop, hs, hr, hc', he]

/-- C4 witness: a one-row source whose single row has an empty address
satisfies the hypotheses, and there the skip equation holds concretely. -/
theorem empty_email_row_skipped_witness :
    ((fun _ : Int => false) 0 = false) ∧
    rowSkipped [rowNoEmail] 0 = true ∧
    (([cfgA][(initRun 0).config_index]?).isSome = true) ∧
    runLoop [cfgA] [rowNoEmail] (fun _ => false) (fun _ => true) (0 :: [])
        (initRun 0)
      = runLoop [cfgA] [rowNoEmail] (fun _ => false) (fun _ => true) [] (initRun 0) :=
  ⟨rfl, by decide, by decide,
    empty_email_row_skipped [cfgA] [rowNoEmail] (fun _ => false) (fun _ => true)
      0 [] (initRun 0) rfl (by decide) (by decide)⟩

/-- C4 counterexample: on a job over a single empty-address row starting at
cursor 0, the final cursor is still 0, not 1 — the claim's assertion that
the cursor advances past a skipped row is false. -/
theorem skip_leaves_cursor_unchanged :
    (start_job false [cfgA] (some [rowNoEmail]) 1 1 (fun _ => false)
        (fun _ => true) ⟨false, false, 0, 0, 0⟩).1.current_index = 0 ∧
    (start_job false [cfgA] (some [rowNoEmail]) 1 1 (fun _ => false)
        (fun _ => true) ⟨false, false, 0, 0, 0⟩).1.current_index ≠ 1 := by
  decide

/-- C1 (amended): over any run, the shared cursor ends at one past the
index of the last *successful* delivery (or stays at its starting value
when nothing succeeded): a failed attempt leaves the cursor unadvanced,
while the engine still moves on to the remaining recipients in order and
never re-attempts an index (the success trace is a subsequence of the
iteration list); and the pacing delay is slept exactly once per success,
so failures incur no delay. -/
theorem cursor_follows_last_success (configs : List EmailConfig) (rows : List Row)
    (stopO sendO : Int → Bool) (l : List Int) (st : RunState)
    (h0 : st.successIdxs = []) (hdc : st.delays = st.count) :
    (runLoop configs rows stopO sendO l st).1.current_index
      = lastCursor st.current_index
          (runLoop configs rows stopO sendO l st).1.successIdxs ∧
    ((runLoop configs rows stopO sendO l st).1.successIdxs).Sublist l ∧
    (∀ i ∈ (runLoop configs rows stopO sendO l st).1.successIdxs, sendO i = true) ∧
    (runLoop configs rows stopO sendO l st).1.delays
      = (runLoop configs rows stopO sendO l st).1.count := by
  obtain ⟨next, h1, h2, h3, h4⟩ := runLoop_traces configs rows stopO sendO l st
  rw [h0] at h1
  simp only [List.nil_append] at h1
  rw [h1]
  exact ⟨h2, h3, h4, runLoop_delays configs rows stopO sendO l st hdc⟩

/-- C1 witness: a two-row run in which only the second delivery succeeds;
the cursor-trace characterization holds there by the theorem. -/
theorem cursor_follows_last_success_witness :
    ((initRun 0).successIdxs = []) ∧ ((initRun 0).delays = (initRun 0).count) ∧
    ((runLoop [cfgA] [rowA, rowA] (fun _ => false) (fun i => i == 1)
          (intRange 0 2) (initRun 0)).1.current_index
        = lastCursor (initRun 0).current_index
            (runLoop [cfgA] [rowA, rowA] (fun _ => false) (fun i => i == 1)
              (intRange 0 2) (initRun 0)).1.successIdxs ∧
      ((runLoop [cfgA] [rowA, rowA] (fun _ => false) (fun i => i == 1)
          (intRange 0 2) (initRun 0)).1.successIdxs).Sublist (intRange 0 2) ∧
      (∀ i ∈ (runLoop [cfgA] [rowA, rowA] (fun _ => false) (fun i => i == 1)
          (intRange 0 2) (initRun 0)).1.successIdxs, (fun i => i == 1) i = true) ∧
      (runLoop [cfgA] [rowA, rowA] (fun _ => false) (fun i => i == 1)
          (intRange 0 2) (initRun 0)).1.delays
        = (runLoop [cfgA] [rowA, rowA] (fun _ => false) (fun i => i == 1)
            (intRange 0 2) (initRun 0)).1.count) :=
  ⟨rfl, rfl, cursor_follows_last_success [cfgA] [rowA, rowA] (fun _ => false)
    (fun i => i == 1) (intRange 0 2) (initRun 0) rfl rfl⟩

/-- C1 counterexample: a run over one valid recipient whose delivery fails
ends with the cursor still at 0 — not advanced by exactly 1 past the
attempted recipient as the claim states. -/
theorem cursor_not_advanced_on_failure :
    (start_job false [cfgA] (some [rowA]) 1 1 (fun _ => false) (fun _ => false)
        ⟨false, false, 5, 3, 2⟩).1.current_index = 0 ∧
    (start_job false [cfgA] (some [rowA]) 1 1 (fun _ => false) (fun _ => false)
        ⟨false, false, 5, 3, 2⟩).1.current_index ≠ 1 := by
  decide

/-- C2 (amended): the rotation counter starts at credential 0 and advances
by exactly one per *successful* delivery (not per attempt): over a run in
which every iterated row is attempted and every delivery succeeds, the k-th
delivery uses credential `k mod N`, and each credential index is selected
either `⌊K/N⌋` or `⌊K/N⌋ + 1` times — exactly `K/N` times when `N` divides
`K` — i.e. floor or ceiling of `K/N`, in strict round-robin order. -/
theorem rotation_round_robin_on_successes (configs : List EmailConfig)
    (rows : List Row) (stopO sendO : Int → Bool) (l : List Int) (c0 : Int)
    (hne : configs ≠ [])
    (hstop : ∀ i ∈ l, stopO i = false)
    (hsend : ∀ i ∈ l, sendO i = true)
    (hrow : ∀ i ∈ l, rowAttempted rows i = true) :
    (runLoop configs rows stopO sendO l (initRun c0)).1.usedCreds
        = (List.range l.length).map (fun j => j % configs.length) ∧
    (∀ r : Nat, r < configs.length →
      ((runLoop configs rows stopO sendO l (initRun c0)).1.usedCreds.count r
          = l.length / configs.length ∨
        (runLoop configs rows stopO sendO l (initRun c0)).1.usedCreds.count r
          = l.length / configs.length + 1) ∧
      (configs.length ∣ l.length →
        (runLoop configs rows stopO sendO l (initRun c0)).1.usedCreds.count r
          = l.length / configs.length)) := by
  have hmain := runLoop_all_success configs rows stopO sendO hne l (initRun c0)
    hstop hsend hrow (by simp [initRun])
  have husd : (runLoop configs rows stopO sendO l (initRun c0)).1.usedCreds
      = (List.range l.length).map (fun j => j % configs.length) := by
    rw [hmain.1]
    simp [initRun]
  refine ⟨husd, fun r hr => ?_⟩
  have hN : 0 < configs.length := List.length_pos.mpr hne
  have hcount := count_range_map_mod configs.length hN r hr l.length
  rw [husd]
  constructor
  · by_cases hlt : r < l.length % configs.length
    · right
      rw [hcount, if_pos hlt]
    · left
      rw [hcount, if_neg hlt]
      simp
  · intro hdvd
    have hz : l.length % configs.length = 0 := Nat.mod_eq_zero_of_dvd hdvd
    rw [hcount, hz]
    simp

/-- C2 witness: 3 credentials, 5 valid recipients, every delivery
succeeding: the hypotheses hold concretely and the theorem yields the
rotation trace `[0, 1, 2, 0, 1]` together with the floor/ceiling counts. -/
theorem rotation_round_robin_on_successes_witness :
    ([cfgA, cfgA, cfgA] ≠ ([] : List EmailConfig)) ∧
    (∀ i ∈ intRange 0 5, (fun _ : Int => false) i = false) ∧
    (∀ i ∈ intRange 0 5, (fun _ : Int => true) i = true) ∧
    (∀ i ∈ intRange 0 5, rowAttempted [rowA, rowA, rowA, rowA, rowA] i = true) ∧
    ((runLoop [cfgA, cfgA, cfgA] [rowA, rowA, rowA, rowA, rowA] (fun _ => false)
          (fun _ => true) (intRange 0 5) (initRun 0)).1.usedCreds
        = (List.range (intRange 0 5).length).map
            (fun j => j % [cfgA, cfgA, cfgA].length) ∧
      (∀ r : Nat, r < [cfgA, cfgA, cfgA].length →
        ((runLoop [cfgA, cfgA, cfgA] [rowA, rowA, rowA, rowA, rowA] (fun _ => false)
              (fun _ => true) (intRange 0 5) (initRun 0)).1.usedCreds.count r
            = (intRange 0 5).length / [cfgA, cfgA, cfgA].length ∨
          (runLoop [cfgA, cfgA, cfgA] [rowA, rowA, rowA, rowA, rowA] (fun _ => false)
              (fun _ => true) (intRange 0 5) (initRun 0)).1.usedCreds.count r
            = (intRange 0 5).length / [cfgA, cfgA, cfgA].length + 1) ∧
        ([cfgA, cfgA, cfgA].length ∣ (intRange 0 5).length →
          (runLoop [cfgA, cfgA, cfgA] [rowA, rowA, rowA, rowA, rowA] (fun _ => false)
              (fun _ => true) (intRange 0 5) (initRun 0)).1.usedCreds.count r
            = (intRange 0 5).length / [cfgA, cfgA, cfgA].length))) :=
  ⟨by decide, by decide, by decide, by decide,
    rotation_round_robin_on_successes [cfgA, cfgA, cfgA] [rowA, rowA, rowA, rowA, rowA]
      (fun _ => false) (fun _ => true) (intRange 0 5) 0
      (by decide) (by decide) (by decide) (by decide)⟩

/-- C2 counterexample: with 2 credentials and 2 attempted recipients where
the first delivery fails and the second succeeds, both attempts use
credential 0 — the rotation counter did not advance on the failed attempt,
so the claimed per-attempt advance (which would give `[0, 1]`) is false. -/
theorem rotation_stalls_on_failure :
    (runLoop [cfgA, cfgA] [rowA, rowA] (fun _ => false) (fun i => i == 1)
        (intRange 0 2) (initRun 0)).1.usedCreds = [0, 0] ∧
    (runLoop [cfgA, cfgA] [rowA, rowA] (fun _ => false) (fun i => i == 1)
        (intRange 0 2) (initRun 0)).1.usedCreds ≠ [0, 1] := by
  decide

/-- C7 (amended): for every job run started with requested lower bound
`a ≥ 1`, the final state satisfies `sent_emails ≤ total_emails` and
`current_index ≥ minIndex - 1` (for the normalized `minIndex`), and along
the run both `sent_emails` and `current_index` are monotonically
non-decreasing: the state after any prefix of the iteration list is
bounded by the state after the whole list.  (When `a < 1` the first two
bounds can fail, see `sent_exceeds_total_target`.) -/
theorem run_counters_bounded_and_monotone (configs : List EmailConfig)
    (rows : List Row) (a b : Int) (stopO sendO : Int → Bool) (st : GlobalState)
    (ha : 1 ≤ a) :
    (((start_job false configs (some rows) a b stopO sendO st).1.sent_emails : Int)
        ≤ (start_job false configs (some rows) a b stopO sendO st).1.total_emails) ∧
    ((normalizeWindow a b (rows.length : Int)).1 - 1
        ≤ (start_job false configs (some rows) a b stopO sendO st).1.current_index) ∧
    (∀ l₁ l₂ : List Int,
      loopIndices (a - 1) (normalizeWindow a b (rows.length : Int)).2 = l₁ ++ l₂ →
      (runLoop configs rows stopO sendO l₁ (initRun (a - 1))).1.sent_emails
          ≤ (runLoop configs rows stopO sendO (l₁ ++ l₂)
              (initRun (a - 1))).1.sent_emails ∧
      (runLoop configs rows stopO sendO l₁ (initRun (a - 1))).1.current_index
          ≤ (runLoop configs rows stopO sendO (l₁ ++ l₂)
              (initRun (a - 1))).1.current_index) := by
  have hn1 := normalizeWindow_fst_le a b (rows.length : Int) ha
  have hn2 := normalizeWindow_fst_le_snd a b (rows.length : Int)
  refine ⟨?_, ?_, ?_⟩
  · by_cases hconf : configs.isEmpty
    · simp [start_job, send_bulk_emails, hconf, resetState]
    · simp only [start_job, send_bulk_emails, hconf, Bool.false_eq_true, if_false,
        resetState]
      have hle := runLoop_sent_le configs rows stopO sendO
        (loopIndices (a - 1) (normalizeWindow a b (rows.length : Int)).2)
        (initRun (a - 1))
      have hK : ((loopIndices (a - 1)
            (normalizeWindow a b (rows.length : Int)).2).length : Int)
          ≤ totalTarget a b (rows.length : Int) := by
        simp only [loopIndices, intRange_length, totalTarget]
        omega
      rw [show (initRun (a - 1)).sent_emails = 0 from rfl, Nat.zero_add] at hle
      refine le_trans ?_ hK
      exact_mod_cast hle
  · by_cases hconf : configs.isEmpty
    · simp only [start_job, send_bulk_emails, hconf, Bool.false_eq_true, if_false,
        if_true, resetState]
      simp
      omega
    · simp only [start_job, send_bulk_emails, hconf, Bool.false_eq_true, if_false,
        resetState]
      have hmono := runLoop_cursor_mono configs rows stopO sendO
        (loopIndices (a - 1) (normalizeWindow a b (rows.length : Int)).2)
        (initRun (a - 1))
        (by simpa [loopIndices] using
          intRange_pairwise (a - 1) (normalizeWindow a b (rows.length : Int)).2)
        (fun j hj => by
          have := (mem_intRange.mp (by simpa [loopIndices] using hj)).1
          simp only [initRun]
          omega)
      rw [show (initRun (a - 1)).current_index = a - 1 from rfl] at hmono
      simp
      omega
  · intro l₁ l₂ heq
    have hpw : (l₁ ++ l₂).Pairwise (· < ·) := by
      rw [← heq]
      simpa [loopIndices] using
        intRange_pairwise (a - 1) (normalizeWindow a b (rows.length : Int)).2
    have hlb : ∀ j ∈ l₁ ++ l₂, a - 1 ≤ j + 1 := by
      intro j hj
      rw [← heq] at hj
      have := (mem_intRange.mp (by simpa [loopIndices] using hj)).1
      omega
    have hsplit := List.pairwise_append.mp hpw
    constructor
    · rw [runLoop_append]
      rcases hx : runLoop configs rows stopO sendO l₁ (initRun (a - 1)) with ⟨st', ex⟩
      cases ex with
      | finished => simpa using runLoop_sent_mono configs rows stopO sendO l₂ st'
      | broke => exact le_refl _
      | crashed => exact le_refl _
    · rw [runLoop_append]
      rcases hx : runLoop configs rows stopO sendO l₁ (initRun (a - 1)) with ⟨st', ex⟩
      cases ex with
      | finished =>
        refine runLoop_cursor_mono configs rows stopO sendO l₂ st' hsplit.2.1 ?_
        intro j hj
        have hub : ∀ k ∈ l₁, k + 1 ≤ j + 1 := fun k hk => by
          have := hsplit.2.2 k hk j hj
          omega
        have h0 : (initRun (a - 1)).current_index ≤ j + 1 := by
          have := hlb j (List.mem_append_right _ hj)
          simp only [initRun]
          omega
        have hcl := runLoop_cursor_le configs rows stopO sendO l₁ (initRun (a - 1))
          (j + 1) hub h0
        rw [hx] at hcl
        exact hcl
      | broke => exact le_refl _
      | crashed => exact le_refl _

/-- C7 witness: a one-recipient all-success run with requested bounds 1..1
satisfies the hypothesis and all three conclusions. -/
theorem run_counters_bounded_and_monotone_witness :
    ((1 : Int) ≤ 1) ∧
    ((((start_job false [cfgA] (some [rowA]) 1 1 (fun _ => false) (fun _ => true)
            ⟨false, false, 0, 0, 0⟩).1.sent_emails : Int)
        ≤ (start_job false [cfgA] (some [rowA]) 1 1 (fun _ => false) (fun _ => true)
            ⟨false, false, 0, 0, 0⟩).1.total_emails) ∧
      ((normalizeWindow 1 1 (([rowA] : List Row).length : Int)).1 - 1
        ≤ (start_job false [cfgA] (some [rowA]) 1 1 (fun _ => false) (fun _ => true)
            ⟨false, false, 0, 0, 0⟩).1.current_index) ∧
      (∀ l₁ l₂ : List Int,
        loopIndices (1 - 1) (normalizeWindow 1 1 (([rowA] : List Row).length : Int)).2
            = l₁ ++ l₂ →
        (runLoop [cfgA] [rowA] (fun _ => false) (fun _ => true) l₁
            (initRun (1 - 1))).1.sent_emails
          ≤ (runLoop [cfgA] [rowA] (fun _ => false) (fun _ => true) (l₁ ++ l₂)
              (initRun (1 - 1))).1.sent_emails ∧
        (runLoop [cfgA] [rowA] (fun _ => false) (fun _ => true) l₁
            (initRun (1 - 1))).1.current_index
          ≤ (runLoop [cfgA] [rowA] (fun _ => false) (fun _ => true) (l₁ ++ l₂)
              (initRun (1 - 1))).1.current_index)) :=
  ⟨by decide, run_counters_bounded_and_monotone [cfgA] [rowA] 1 1 (fun _ => false)
    (fun _ => true) ⟨false, false, 0, 0, 0⟩ (by decide)⟩

/-- C7 counterexample: a job started with requested bounds 0..2 over a
2-row source (all deliveries succeeding) terminates with
`sent_emails = 3 > 2 = total_emails`, because the cursor starts at the raw
`0 - 1 = -1` and pandas accepts the negative index, so the claimed
invariant `sentCount_final ≤ totalTarget` fails. -/
theorem sent_exceeds_total_target :
    (start_job false [cfgA] (some [rowA, rowA]) 0 2 (fun _ => false) (fun _ => true)
        ⟨false, false, 0, 0, 0⟩).1.sent_emails = 3 ∧
    (start_job false [cfgA] (some [rowA, rowA]) 0 2 (fun _ => false) (fun _ => true)
        ⟨false, false, 0, 0, 0⟩).1.total_emails = 2 ∧
    ¬ (((start_job false [cfgA] (some [rowA, rowA]) 0 2 (fun _ => false)
          (fun _ => true) ⟨false, false, 0, 0, 0⟩).1.sent_emails : Int)
        ≤ (start_job false [cfgA] (some [rowA, rowA]) 0 2 (fun _ => false)
            (fun _ => true) ⟨false, false, 0, 0, 0⟩).1.total_emails) := by
  decide

end Sending
